import Mathlib

/-!
Verification development for the PPTGenerator presentation layout engine
(`ppt_generator.py`).  The Python code is shallowly embedded: strings are
lists of characters, lengths are exact rationals measured in EMU
(1 inch = 914400 EMU, as in python-pptx), every drawing function returns the
list of drawable elements it places on the slide surface, and
`create_presentation` returns both the caller's (possibly mutated) slide
records and the produced slides.  Python's float division is modelled by
exact rational division; every `Inches(x)` literal occurring in the source
evaluates to the exact integer `914400 * x`, so the rational model agrees
with the Python values.
-/

namespace PPTGen

/-- Strings are modelled as lists of characters (Python `str`). -/
abbrev Str := List Char

/-- Python-pptx `Inches(x)`: EMU per inch is 914400.  All fractional
inch literals in the source (`0.1`, `0.7`, `1.2`, ...) convert exactly. -/
def inch (x : ℚ) : ℚ := 914400 * x

/-! ### The inline markup parser

`apply_formatted_text_to_paragraph` splits its input with
`re.split(r'(\*\*.*?\*\*|\[\[.*?\]\])', text)` and turns each part into at
most one styled run.  `findClosing a l` models the lazy search for the
closing doubled marker `aa` performed by `.*?\*\*` / `.*?\]\]` (where `.`
does not match a newline); `splitMarkers` models the left-to-right scan of
`re.split`, keeping the (possibly empty) gap strings between matches. -/

/-- Lazy search for the earliest closing pair `a,a`: returns the consumed
content (which contains no newline) and the remainder after the pair. -/
def findClosing (a : Char) : Str → Option (Str × Str)
  | c1 :: c2 :: rest =>
    if c1 = a ∧ c2 = a then some ([], rest)
    else if c1 = '\n' then none
    else (findClosing a (c2 :: rest)).map fun p => (c1 :: p.1, p.2)
  | _ => none

/-- The remainder returned by `findClosing` is shorter than the input
(consumed content plus the two closing marker characters). -/
def findClosing_bound : ∀ (a : Char) (l : Str) (t r : Str),
    findClosing a l = some (t, r) → r.length + 2 ≤ l.length := by
  intro a l
  induction l with
  | nil => intro t r h; simp [findClosing] at h
  | cons c1 l1 ih =>
    cases l1 with
    | nil => intro t r h; simp [findClosing] at h
    | cons c2 rest2 =>
      intro t r h
      simp only [findClosing] at h
      by_cases hA : c1 = a ∧ c2 = a
      · rw [if_pos hA] at h
        injection h with h'
        injection h' with h1 h2
        subst h2
        simp only [List.length_cons]
        omega
      · rw [if_neg hA] at h
        by_cases hN : c1 = '\n'
        · rw [if_pos hN] at h
          exact absurd h (by simp)
        · rw [if_neg hN] at h
          cases heq : findClosing a (c2 :: rest2) with
          | none => rw [heq] at h; simp at h
          | some p =>
            cases p with
            | mk t2 r2 =>
              rw [heq] at h
              simp only [Option.map] at h
              injection h with h'
              injection h' with h1 h2
              have := ih t2 r2 heq
              rw [h2] at this
              simp only [List.length_cons] at this ⊢
              omega

/-- Model of `re.split` with the marker regex: returns the alternating list of gap
parts and matched parts (gaps may be empty, exactly as `re.split` yields
them).  `acc` is the reversed gap accumulated so far. -/
def splitMarkers (acc : Str) (l : Str) : List Str :=
  match l with
  | [] => [acc.reverse]
  | [c1] => [(c1 :: acc).reverse]
  | c1 :: c2 :: rest =>
    if c1 = '*' ∧ c2 = '*' then
      match _h : findClosing '*' rest with
      | some (t, r) =>
        acc.reverse :: ('*' :: '*' :: (t ++ ['*', '*'])) :: splitMarkers [] r
      | none => splitMarkers (c1 :: acc) (c2 :: rest)
    else if c1 = '[' ∧ c2 = '[' then
      match _h : findClosing ']' rest with
      | some (t, r) =>
        acc.reverse :: ('[' :: '[' :: (t ++ [']', ']'])) :: splitMarkers [] r
      | none => splitMarkers (c1 :: acc) (c2 :: rest)
    else splitMarkers (c1 :: acc) (c2 :: rest)
termination_by l.length
decreasing_by
  all_goals (try simp_wf)
  all_goals first
    | (have hkey := findClosing_bound _ _ _ _ _h
       (try simp only [List.length_cons] at hkey)
       (try simp only [List.length_cons])
       omega)
    | ((try simp only [List.length_cons]); omega)

/-- A styled text run (`run` of python-pptx): `blue` models setting the run
color to GOOGLE_BLUE, the only color override the parser produces. -/
structure Run where
  text : Str
  bold : Bool
  blue : Bool
deriving DecidableEq, Repr

/-- A run produced by `p.text = s` (raw, unparsed, unstyled text). -/
def rawRun (s : Str) : Run := ⟨s, false, false⟩

/-- Python `part.startswith(ab)` for a two-character marker. -/
def startsWith2 (a b : Char) : Str → Bool
  | x :: y :: _ => x = a && y = b
  | _ => false

/-- Python `part.endswith(ab)` for a two-character marker (overlap allowed,
exactly as in Python: `"**".endswith("**")` is true). -/
def endsWith2 (a b : Char) (l : Str) : Bool := startsWith2 b a l.reverse

/-- Python `part[2:-2]`. -/
def stripEnds2 (l : Str) : Str := (l.drop 2).take (l.length - 4)

/-- The per-part branch of `apply_formatted_text_to_paragraph`: a `**..**`
part becomes a bold run, a `[[..]]` part a bold GOOGLE_BLUE run, any other
non-empty part a plain run. -/
def markup_part_runs (part : Str) : List Run :=
  if startsWith2 '*' '*' part && endsWith2 '*' '*' part then
    [⟨stripEnds2 part, true, false⟩]
  else if startsWith2 '[' '[' part && endsWith2 ']' ']' part then
    [⟨stripEnds2 part, true, true⟩]
  else if part.isEmpty then []
  else [⟨part, false, false⟩]

/-- Model of `apply_formatted_text_to_paragraph(p, text)`: the ordered runs added to
the paragraph (the `if not text: return` guard yields no runs, which
coincides with splitting the empty string). -/
def apply_formatted_text_to_paragraph (text : Str) : List Run :=
  (splitMarkers [] text).flatMap markup_part_runs

/-- The `MAX_TEXT_LENGTH_FOR_NAME`/`MAX_NOTES_LENGTH_FOR_NAME` truncation:
texts longer than 1000 characters are cut and an ellipsis is appended. -/
def truncateWithEllipsis (s : Str) : Str :=
  if 1000 < s.length then s.take 1000 ++ ['.', '.', '.'] else s

/-- Model of `set_formatted_text_in_frame(tf, text)`: the paragraphs of the frame
after the call — one (possibly empty) paragraph. -/
def set_formatted_text_in_frame (text : Str) : List (List Run) :=
  if text.isEmpty then [[]]
  else [apply_formatted_text_to_paragraph (truncateWithEllipsis text)]

/-! ### Grammar of balanced marker texts

The spec's "balanced markers" are formalised by this token grammar: a text
is a sequence of plain segments, `**bold**` segments and `[[highlight]]`
segments.  The well-formedness conditions (`Tok.wf`) express that the
segments do not themselves contain stray marker pairs, newlines inside a
marked span, or a trailing marker character that would glue onto the next
segment's delimiter. -/

/-- Whether the doubled character `aa` occurs as a substring. -/
def hasDbl (a : Char) : Str → Bool
  | x :: y :: rest => (x = a && y = a) || hasDbl a (y :: rest)
  | _ => false

/-- An inert gap string: no `**`, no `[[`, and not ending in a character
that could combine with a following delimiter. -/
def plainWf (s : Str) : Prop :=
  hasDbl '*' s = false ∧ hasDbl '[' s = false ∧
    s.getLast? ≠ some '*' ∧ s.getLast? ≠ some '['

/-- One segment of a balanced-marker text. -/
inductive Tok where
  | plain (s : Str)
  | bold (s : Str)
  | hl (s : Str)

/-- The concrete text of a segment, delimiters included. -/
def Tok.render : Tok → Str
  | .plain s => s
  | .bold s => '*' :: '*' :: (s ++ ['*', '*'])
  | .hl s => '[' :: '[' :: (s ++ [']', ']'])

/-- The text of a segment with the marker delimiters removed. -/
def Tok.content : Tok → Str
  | .plain s => s
  | .bold s => s
  | .hl s => s

/-- Well-formedness ("balanced") of one segment. -/
def Tok.wf : Tok → Prop
  | .plain s => plainWf s
  | .bold s => hasDbl '*' s = false ∧ '\n' ∉ s ∧ s.getLast? ≠ some '*'
  | .hl s => hasDbl ']' s = false ∧ '\n' ∉ s ∧ s.getLast? ≠ some ']'

/-- A balanced-marker text rendered as a concrete string. -/
def renderToks (ts : List Tok) : Str := (ts.map Tok.render).flatten

/-- The same text with all marker delimiter characters removed. -/
def contentsToks (ts : List Tok) : Str := (ts.map Tok.content).flatten

/-- Concatenation of the text of a list of runs (styling ignored). -/
def runsText (rs : List Run) : Str := (rs.map Run.text).flatten

/-! ### Geometry primitives (`ppt_generator.py`, section 1) -/

def SLIDE_WIDTH : ℚ := inch 16
def SLIDE_HEIGHT : ℚ := inch 9
def MARGIN_LEFT : ℚ := inch 1
def MARGIN_RIGHT : ℚ := inch 1
def MARGIN_TOP : ℚ := inch (4/5)
def MARGIN_BOTTOM : ℚ := inch (4/5)

/-! ### Drawable elements

A drawing function is modelled as the ordered list of elements it places on
the slide surface.  Pure styling attributes (fonts, colors, alignment,
word-wrap) are abstracted away; positions, sizes, shape kinds and the text
paragraphs (as lists of runs) are kept. -/

inductive ShapeKind where
  | rectangle
  | rightArrow
  | oval
  | roundedRectangle
deriving DecidableEq, Repr

inductive Element where
  /-- A call `slide.shapes.add_textbox(x, y, w, h)` with its final paragraphs. -/
  | textbox (x y w h : ℚ) (paras : List (List Run))
  /-- A call `slide.shapes.add_shape(kind, x, y, w, h)` with its final paragraphs. -/
  | shape (k : ShapeKind) (x y w h : ℚ) (paras : List (List Run))
  /-- A call `slide.shapes.add_table(nRows, nCols, x, y, w, h)`. -/
  | table (nRows nCols : ℕ) (x y w h : ℚ)
deriving DecidableEq, Repr

/-! ### Slide data

The Python code receives each slide as a dict and reads fields with
`.get`.  The dict is modelled as a record of optional fields; fields read
with a default (`.get(k, v)`) that only ever matter through that default
are stored with the defaulted type.  The JSON key `columns` is read as a
list of two string lists by `draw_content_slide` and as a column count by
`draw_cards_slide`; the two readings are modelled as two fields. -/

structure Lane where
  title : Str := []
  items : List Str := []
deriving DecidableEq, Repr

structure Milestone where
  label : Str := []
  date : Str := []
deriving DecidableEq, Repr

structure ProgressItem where
  label : Str := []
  percent : ℚ := 0
deriving DecidableEq, Repr

inductive CardItem where
  /-- a bare string item -/
  | str (s : Str)
  /-- a `{title, desc}` object (absent keys read as `""`) -/
  | obj (title : Str) (desc : Str)
deriving DecidableEq, Repr

structure SlideData where
  type? : Option Str := none
  title? : Option Str := none
  subhead? : Option Str := none
  notes? : Option Str := none
  date? : Option Str := none
  sectionNo? : Option Int := none
  points? : Option (List Str) := none
  twoColumn : Bool := false
  columns? : Option (List (List Str)) := none
  steps : List Str := []
  milestones : List Milestone := []
  lanes : List Lane := []
  cardItems : List CardItem := []
  cardColumns? : Option ℕ := none
  headers : List Str := []
  rows : List (List Str) := []
  leftTitle? : Option Str := none
  rightTitle? : Option Str := none
  leftItems : List Str := []
  rightItems : List Str := []
  progressItems : List ProgressItem := []
deriving DecidableEq, Repr

/-- Conversion of a Lean string literal to the character-list model. -/
def str (s : String) : Str := s.data

/-! ### Shared header layout

Most body slide kinds start with the same title textbox and, when a
`subhead` is present, the same subhead textbox followed by a `0.6` inch
shift of the body top. -/

/-- The standard slide-title textbox. -/
def slide_title_box (t : Str) : Element :=
  Element.textbox MARGIN_LEFT MARGIN_TOP (SLIDE_WIDTH - MARGIN_LEFT - MARGIN_RIGHT)
    (inch 1) (set_formatted_text_in_frame t)

/-- The standard subhead textbox of compare/process/table/diagram/cards/
progress slides. -/
def subhead_box (s : Str) : Element :=
  Element.textbox MARGIN_LEFT (MARGIN_TOP + inch (6/5))
    (SLIDE_WIDTH - MARGIN_LEFT - MARGIN_RIGHT) (inch (1/2))
    [apply_formatted_text_to_paragraph s]

/-- Title plus optional subhead, as emitted by the body slide kinds. -/
def contentHeader (d : SlideData) : List Element :=
  slide_title_box (d.title?.getD []) ::
    (match d.subhead? with
     | some s => [subhead_box s]
     | none => [])

/-- The `body_top` value after the title and the optional subhead shift. -/
def bodyTopStd (d : SlideData) : ℚ :=
  MARGIN_TOP + inch (6/5) + (if d.subhead?.isSome then inch (3/5) else 0)

/-! ### Per-slide-type drawing functions -/

/-- Model of `draw_title_slide`. -/
def draw_title_slide (d : SlideData) : List Element :=
  [ Element.textbox (inch 1) (inch (7/2)) (SLIDE_WIDTH - inch 2) (inch 2)
      (set_formatted_text_in_frame (d.title?.getD [])),
    Element.textbox (inch 1) (inch 8) (SLIDE_WIDTH - inch 2) (inch (1/2))
      [[rawRun (d.date?.getD [])]] ]

/-- Test `'0' ≤ c ≤ '9'`, the ASCII digits matched by `\d` here. -/
def isDigitChar (c : Char) : Bool := '0' ≤ c && c ≤ '9'

/-- Python `\s` whitespace characters (ASCII range). -/
def isSpaceChar (c : Char) : Bool :=
  c = ' ' || c = '\t' || c = '\n' || c = '\x0b' || c = '\x0c' || c = '\r'

/-- After the digits of `^\d+`, `[\.\:\-]?` drops one optional separator. -/
def dropSep : Str → Str
  | c :: rest => if c = '.' || c = ':' || c = '-' then rest else c :: rest
  | [] => []

/-- Model of `re.sub(r'^\d+[\.\:\-]?\s*', '', title)`: strip a leading number, an
optional separator and following whitespace; no change when the title does
not start with a digit. -/
def stripLeadingNumber (s : Str) : Str :=
  match s with
  | c :: _ =>
    if isDigitChar c then (dropSep (s.dropWhile isDigitChar)).dropWhile isSpaceChar
    else s
  | [] => []

/-- Python `str(section_no)` where `section_no = data.get("sectionNo", "")`. -/
def sectionNoText (n : Option Int) : Str :=
  match n with
  | some k => (toString k).data
  | none => []

/-- Model of `draw_section_slide`: number pane and cleaned title side by side. -/
def draw_section_slide (d : SlideData) : List Element :=
  [ Element.textbox MARGIN_LEFT (inch 3) (inch 2) (inch 3)
      [[rawRun (sectionNoText d.sectionNo?)]],
    Element.textbox (MARGIN_LEFT + inch 2 + inch (1/2)) (inch 3)
      ((SLIDE_WIDTH - MARGIN_LEFT * 2) - inch 2 - inch (1/2)) (inch 3)
      (set_formatted_text_in_frame (stripLeadingNumber (d.title?.getD []))) ]

/-- The paragraphs of the one-column body textbox: the cleared initial
paragraph, then the subhead paragraph when present, then one paragraph per
point. -/
def contentBodyParas (d : SlideData) : List (List Run) :=
  [] ::
    ((match d.subhead? with
      | some s => [apply_formatted_text_to_paragraph s]
      | none => []) ++
     (match d.points? with
      | some ps => ps.map apply_formatted_text_to_paragraph
      | none => []))

/-- Model of `draw_content_slide`: one- or two-column body under the title. -/
def draw_content_slide (d : SlideData) : List Element :=
  let bodyTop := MARGIN_TOP + inch (6/5)
  let bodyHeight := SLIDE_HEIGHT - bodyTop - MARGIN_BOTTOM
  let titleBox := slide_title_box (d.title?.getD [])
  if d.twoColumn then
    let colsData := d.columns?.getD [[], []]
    let leftItems := (colsData.get? 0).getD []
    let rightItems := (colsData.get? 1).getD []
    let colWidth := (SLIDE_WIDTH - MARGIN_LEFT * 2 - inch (1/2)) / 2
    [ titleBox,
      Element.textbox MARGIN_LEFT bodyTop colWidth bodyHeight
        ([] :: leftItems.map apply_formatted_text_to_paragraph),
      Element.textbox (MARGIN_LEFT + colWidth + inch (1/2)) bodyTop colWidth bodyHeight
        ([] :: rightItems.map apply_formatted_text_to_paragraph) ]
  else
    [ titleBox,
      Element.textbox MARGIN_LEFT bodyTop (SLIDE_WIDTH - MARGIN_LEFT - MARGIN_RIGHT)
        bodyHeight (contentBodyParas d) ]

/-- Model of `draw_compare_slide`: two header bars and two bullet lists. -/
def draw_compare_slide (d : SlideData) : List Element :=
  let bodyTop := bodyTopStd d
  let colWidth := (SLIDE_WIDTH - MARGIN_LEFT * 2 - inch (1/2)) / 2
  let colHeight := SLIDE_HEIGHT - bodyTop - MARGIN_BOTTOM
  contentHeader d ++
    [ Element.textbox MARGIN_LEFT bodyTop colWidth (inch (1/2))
        (set_formatted_text_in_frame (d.leftTitle?.getD [])),
      Element.textbox (MARGIN_LEFT + colWidth + inch (1/2)) bodyTop colWidth (inch (1/2))
        (set_formatted_text_in_frame (d.rightTitle?.getD [])),
      Element.textbox MARGIN_LEFT (bodyTop + inch (3/5)) colWidth
        (colHeight - inch (3/5))
        ([] :: d.leftItems.map apply_formatted_text_to_paragraph),
      Element.textbox (MARGIN_LEFT + colWidth + inch (1/2)) (bodyTop + inch (3/5))
        colWidth (colHeight - inch (3/5))
        ([] :: d.rightItems.map apply_formatted_text_to_paragraph) ]

/-- The fixed square step size of process slides. -/
def stepSize : ℚ := inch (3/2)

/-- The fixed connector (arrow) width of process slides. -/
def connectorWidth : ℚ := inch (4/5)

/-- The source's `available_width = SLIDE_WIDTH - MARGIN_LEFT * 2`. -/
def availableWidth : ℚ := SLIDE_WIDTH - MARGIN_LEFT * 2

/-- The per-gap width of `draw_process_slide`:
`remaining_width_for_gaps / ((num_steps - 1) * 2)` when `num_steps > 1`,
else `Inches(0)`. -/
def process_gap_width (n : ℕ) : ℚ :=
  if 1 < n then
    (availableWidth - n * stepSize - ((n : ℚ) - 1) * connectorWidth) / (((n : ℚ) - 1) * 2)
  else 0

/-- The step/arrow emission loop of `draw_process_slide`, carrying
`current_x`. -/
def processStepsElems (gap startY : ℚ) : List Str → ℚ → List Element
  | [], _ => []
  | [s], x =>
    [Element.shape .rectangle x startY stepSize stepSize
      [apply_formatted_text_to_paragraph s]]
  | s :: s2 :: rest, x =>
    Element.shape .rectangle x startY stepSize stepSize
        [apply_formatted_text_to_paragraph s] ::
      Element.shape .rightArrow (x + stepSize + gap)
          ((startY + stepSize / 2) - inch (1/10)) connectorWidth (inch (1/5)) [[]] ::
        processStepsElems gap startY (s2 :: rest) (x + stepSize + gap + connectorWidth + gap)

/-- Model of `draw_process_slide`. -/
def draw_process_slide (d : SlideData) : List Element :=
  contentHeader d ++
    (match d.steps with
     | [] => []
     | steps =>
       let bodyTop := bodyTopStd d
       let startY := bodyTop + ((SLIDE_HEIGHT - bodyTop - MARGIN_BOTTOM) - stepSize) / 2
       processStepsElems (process_gap_width steps.length) startY steps MARGIN_LEFT)

/-- Model of `draw_closing_slide`: the fixed "Thank you" caption. -/
def draw_closing_slide (_d : SlideData) : List Element :=
  [Element.textbox (inch 1) (inch (7/2)) (SLIDE_WIDTH - inch 2) (inch 2)
    [[rawRun (str "Thank you")]]]

/-- Model of `draw_table_slide`. -/
def draw_table_slide (d : SlideData) : List Element :=
  contentHeader d ++
    (if d.headers.isEmpty && d.rows.isEmpty then []
     else
       let numCols := if d.headers.isEmpty then ((d.rows.get? 0).getD []).length
                      else d.headers.length
       let numRows := d.rows.length + (if d.headers.isEmpty then 0 else 1)
       if numCols = 0 ∨ numRows = 0 then []
       else
         let tableTop := bodyTopStd d + inch (1/5)
         [Element.table numRows numCols MARGIN_LEFT tableTop
           (SLIDE_WIDTH - MARGIN_LEFT * 2) (SLIDE_HEIGHT - tableTop - MARGIN_BOTTOM)])

/-! #### Timeline -/

/-- Timeline `body_top`: `MARGIN_TOP + 1.2in` plus `1.0in` when a subhead
is drawn, else `0.2in`. -/
def timelineBodyTop (d : SlideData) : ℚ :=
  MARGIN_TOP + inch (6/5) + (if d.subhead?.isSome then inch 1 else inch (1/5))

/-- The vertical center of the timeline baseline. -/
def timelineY (d : SlideData) : ℚ :=
  timelineBodyTop d + (SLIDE_HEIGHT - timelineBodyTop d - MARGIN_BOTTOM) / 2

/-- The baseline bar shape (drawn before the milestones are examined). -/
def timelineBar (d : SlideData) : Element :=
  Element.shape .rectangle MARGIN_LEFT (timelineY d - inch (1/40))
    (SLIDE_WIDTH - MARGIN_LEFT * 2) (inch (1/20)) [[]]

/-- Title plus optional subhead of a timeline slide (its own geometry: the
subhead box is `0.8in` tall, and the title defaults to "Timeline"). -/
def timelineHeader (d : SlideData) : List Element :=
  Element.textbox MARGIN_LEFT MARGIN_TOP (SLIDE_WIDTH - MARGIN_LEFT - MARGIN_RIGHT)
      (inch 1) (set_formatted_text_in_frame (d.title?.getD (str "Timeline"))) ::
    (match d.subhead? with
     | some s =>
       [Element.textbox MARGIN_LEFT (MARGIN_TOP + inch (6/5))
         (SLIDE_WIDTH - MARGIN_LEFT - MARGIN_RIGHT) (inch (4/5))
         (set_formatted_text_in_frame s)]
     | none => [])

/-- Horizontal center of the `i`-th milestone marker. -/
def markerCenterX (n : ℕ) (i : ℕ) : ℚ :=
  let usable := SLIDE_WIDTH - MARGIN_LEFT - MARGIN_RIGHT
  if 1 < n then MARGIN_LEFT + i * (usable / ((n : ℚ) - 1))
  else MARGIN_LEFT + usable / 2

/-- Top coordinate of the description box of milestone `i`: below the
baseline for even `i`, above it (box height `1.5in` higher) for odd `i`. -/
def descYFor (tY : ℚ) (i : ℕ) : ℚ :=
  if i % 2 = 0 then tY + inch (7/10) else tY - inch (7/10) - inch (3/2)

/-- Top coordinate of the date label of milestone `i`: just above the
baseline, except moved above the description box for odd `i`. -/
def dateYFor (tY : ℚ) (i : ℕ) : ℚ :=
  if i % 2 = 0 then tY - inch (7/10) else descYFor tY i - inch (2/5)

/-- The marker, date label and description box of one milestone. -/
def milestoneElems (tY cx : ℚ) (i : ℕ) (m : Milestone) : List Element :=
  [ Element.shape .oval (cx - inch (1/4)) (tY - inch (1/4)) (inch (1/2))
      (inch (1/2)) [[]],
    Element.textbox (cx - inch (7/4)) (dateYFor tY i) (inch (7/2)) (inch (1/2))
      [[rawRun m.date]],
    Element.textbox (cx - inch (7/4)) (descYFor tY i) (inch (7/2)) (inch (3/2))
      [[rawRun m.label]] ]

/-- Model of `draw_timeline_slide`: note that the baseline bar is emitted before the
empty-milestones early return. -/
def draw_timeline_slide (d : SlideData) : List Element :=
  timelineHeader d ++ [timelineBar d] ++
    d.milestones.enum.flatMap fun p =>
      milestoneElems (timelineY d) (markerCenterX d.milestones.length p.1) p.1 p.2

/-! #### Diagram, cards, progress -/

/-- The lane emission loop of `draw_diagram_slide`, carrying `current_y`. -/
def diagramLaneElems (laneH laneW : ℚ) : List Lane → ℚ → List Element
  | [], _ => []
  | lane :: rest, y =>
    Element.textbox MARGIN_LEFT y (inch 2) laneH [[rawRun lane.title]] ::
      Element.textbox (MARGIN_LEFT + inch (11/5)) y (laneW - inch (11/5)) laneH
          ([] :: lane.items.map apply_formatted_text_to_paragraph) ::
        diagramLaneElems laneH laneW rest (y + laneH)

/-- Model of `draw_diagram_slide`. -/
def draw_diagram_slide (d : SlideData) : List Element :=
  contentHeader d ++
    (match d.lanes with
     | [] => []
     | lanes =>
       let bodyTop := bodyTopStd d
       let laneH := (SLIDE_HEIGHT - bodyTop - MARGIN_BOTTOM) / lanes.length
       diagramLaneElems laneH (SLIDE_WIDTH - MARGIN_LEFT - MARGIN_RIGHT) lanes bodyTop)

/-- The clamped card column count: `data.get("columns", 2)`, reset to 2
when not in `{2, 3}`. -/
def cardNumColumns (d : SlideData) : ℕ :=
  let c := d.cardColumns?.getD 2
  if c = 2 ∨ c = 3 then c else 2

/-- The paragraphs inside one card. -/
def cardParas : CardItem → List (List Run)
  | .str s => [] :: [apply_formatted_text_to_paragraph s]
  | .obj t dsc =>
    [] :: apply_formatted_text_to_paragraph t ::
      (if dsc.isEmpty then [] else [apply_formatted_text_to_paragraph dsc])

/-- Model of `draw_cards_slide`: grid of rounded-rectangle cards. -/
def draw_cards_slide (d : SlideData) : List Element :=
  contentHeader d ++
    (match d.cardItems with
     | [] => []
     | items =>
       let nc := cardNumColumns d
       let cardW := ((SLIDE_WIDTH - MARGIN_LEFT * 2) - ((nc : ℚ) - 1) * inch (3/10)) / nc
       let cardH := inch (5/2)
       let startY := bodyTopStd d + inch (1/2)
       items.enum.map fun p =>
         Element.shape .roundedRectangle
           (MARGIN_LEFT + ((p.1 % nc : ℕ) : ℚ) * (cardW + inch (3/10)))
           (startY + ((p.1 / nc : ℕ) : ℚ) * (cardH + inch (3/10)))
           cardW cardH (cardParas p.2))

/-- Foreground progress-bar width: `progress_bar_width * (percent / 100.0)`
with no clamping. -/
def progressFillWidth (percent : ℚ) : ℚ := inch 8 * (percent / 100)

/-- Python `f"{percent}%"` (numeric formatting abstracted as `toString`). -/
def percentLabel (percent : ℚ) : Str := (toString percent).data ++ ['%']

/-- The label, background bar, foreground bar and percent label of one
progress item. -/
def progressItemElems (y : ℚ) (it : ProgressItem) : List Element :=
  [ Element.textbox MARGIN_LEFT y (inch 4) (inch (4/5)) [[rawRun it.label]],
    Element.shape .rectangle (MARGIN_LEFT + inch (9/2))
      (y + (inch (4/5) - inch (1/5)) / 2) (inch 8) (inch (1/5)) [[]],
    Element.shape .rectangle (MARGIN_LEFT + inch (9/2))
      (y + (inch (4/5) - inch (1/5)) / 2) (progressFillWidth it.percent)
      (inch (1/5)) [[]],
    Element.textbox (MARGIN_LEFT + inch (9/2) + inch 8 + inch (1/5)) y (inch 1)
      (inch (4/5)) [[rawRun (percentLabel it.percent)]] ]

/-- Model of `draw_progress_slide`: items stack with a `1.0in` vertical stride
(`item_height + Inches(0.2)`). -/
def draw_progress_slide (d : SlideData) : List Element :=
  contentHeader d ++
    (match d.progressItems with
     | [] => []
     | items =>
       let startY := bodyTopStd d + inch (1/2)
       items.enum.flatMap fun p => progressItemElems (startY + (p.1 : ℚ) * inch 1) p.2)

/-! ### Dispatcher and assembler -/

/-- The `slide_draw_functions` dict of `create_presentation`. -/
def slide_draw_functions (t : Str) : Option (SlideData → List Element) :=
  if t = str "title" then some draw_title_slide
  else if t = str "section" then some draw_section_slide
  else if t = str "content" then some draw_content_slide
  else if t = str "compare" then some draw_compare_slide
  else if t = str "process" then some draw_process_slide
  else if t = str "closing" then some draw_closing_slide
  else if t = str "table" then some draw_table_slide
  else if t = str "timeline" then some draw_timeline_slide
  else if t = str "diagram" then some draw_diagram_slide
  else if t = str "cards" then some draw_cards_slide
  else if t = str "progress" then some draw_progress_slide
  else none

/-- Python `slide_type in slide_draw_functions` (a missing `type` key is never in
the dict). -/
def dispatchOf (d : SlideData) : Option (SlideData → List Element) :=
  match d.type? with
  | some t => slide_draw_functions t
  | none => none

/-- Model of `add_speaker_notes`: notes are attached only when non-empty, truncated
to the 1000-character ceiling. -/
def add_speaker_notes (notes : Option Str) : Option Str :=
  match notes with
  | some s => if s.isEmpty then none else some (truncateWithEllipsis s)
  | none => none

/-- The in-place truncation of `title` and `notes` that
`create_presentation` performs on the caller's slide record. -/
def truncTitleNotes (d : SlideData) : SlideData :=
  { d with
    title? := d.title?.map truncateWithEllipsis,
    notes? := d.notes?.map truncateWithEllipsis }

/-- The name `f"Slide_{i+1}_{slide_type}"` (Python renders a missing type as
`None`). -/
def slideName (i : ℕ) (t : Option Str) : Str :=
  str "Slide_" ++ (toString (i + 1)).data ++ str "_" ++ (t.getD (str "None"))

/-- One produced slide surface: its name, its body elements and its
attached speaker notes. -/
structure OutSlide where
  name : Str
  elements : List Element
  notes : Option Str
deriving DecidableEq, Repr

/-- The per-slide body of the `create_presentation` loop: mutate the
caller's record, dispatch (or skip with a warning), attach notes. -/
def processSlide (i : ℕ) (d0 : SlideData) : SlideData × OutSlide :=
  let d := truncTitleNotes d0
  let elems :=
    match dispatchOf d with
    | some f => f d
    | none => []
  (d, ⟨slideName i d.type?, elems, add_speaker_notes d.notes?⟩)

/-- Model of `create_presentation(slides_data)`: returns the caller's slide list
after the in-place mutations together with the produced slides. -/
def create_presentation (slides : List SlideData) : List SlideData × List OutSlide :=
  let processed := slides.enum.map fun p => processSlide p.1 p.2
  (processed.map Prod.fst, processed.map Prod.snd)

instance (s : Str) : Decidable (plainWf s) :=
  inferInstanceAs (Decidable (hasDbl '*' s = false ∧ hasDbl '[' s = false ∧
    s.getLast? ≠ some '*' ∧ s.getLast? ≠ some '['))

instance : (t : Tok) → Decidable t.wf
  | .plain s => inferInstanceAs (Decidable (plainWf s))
  | .bold s =>
    inferInstanceAs (Decidable (hasDbl '*' s = false ∧ '\n' ∉ s ∧ s.getLast? ≠ some '*'))
  | .hl s =>
    inferInstanceAs (Decidable (hasDbl ']' s = false ∧ '\n' ∉ s ∧ s.getLast? ≠ some ']'))

/-! ### Concrete slide records used as test inputs -/

/-- A slide whose `type` is not in the dispatch table. -/
def bogusSlide : SlideData := { type? := some (str "bogus"), notes? := some (str "note") }

/-- An ordinary title slide. -/
def titleSlideEx : SlideData :=
  { type? := some (str "title"), title? := some (str "Hello"),
    date? := some (str "2025.01.01") }

/-- A section slide without an explicit `sectionNo`. -/
def sectionNoNumber : SlideData :=
  { type? := some (str "section"), title? := some (str "Background") }

/-- A slide whose title exceeds the 1000-character safety ceiling. -/
def longTitleSlide : SlideData :=
  { type? := some (str "content"), title? := some (List.replicate 1001 'a') }

/-- A timeline slide with an empty `milestones` array. -/
def emptyTimeline : SlideData :=
  { type? := some (str "timeline"), title? := some (str "Roadmap") }

/-- A slide with title and subhead whose required collections are all
empty. -/
def emptyBodySlide : SlideData := { title? := some (str "T"), subhead? := some (str "S") }

/-- A timeline slide with two milestones. -/
def twoMilestones : SlideData :=
  { type? := some (str "timeline"), title? := some (str "Plan"),
    milestones := [⟨str "kickoff", str "2025.01"⟩, ⟨str "launch", str "2025.06"⟩] }

/-- A progress slide with an over-100 and a negative percent. -/
def progressSlideEx : SlideData :=
  { type? := some (str "progress"), title? := some (str "Status"),
    progressItems := [⟨str "backend", 120⟩, ⟨str "frontend", -10⟩] }

/-- A two-column content slide that also carries `subhead` and `points`. -/
def contentColsA : SlideData :=
  { type? := some (str "content"), title? := some (str "C"), twoColumn := true,
    columns? := some [[str "l1"], [str "r1"]], subhead? := some (str "ignored"),
    points? := some [str "ignored too"] }

/-- The same two-column content slide without `subhead`/`points`. -/
def contentColsB : SlideData :=
  { type? := some (str "content"), title? := some (str "C"), twoColumn := true,
    columns? := some [[str "l1"], [str "r1"]] }

/-- A one-column content slide with subhead and points. -/
def contentOneCol : SlideData :=
  { type? := some (str "content"), title? := some (str "C"),
    subhead? := some (str "S"), points? := some [str "p1", str "p2"] }

/-- A balanced-marker token sequence used as a parser test input. -/
def toksEx : List Tok :=
  [Tok.plain (str "see "), Tok.bold (str "this"), Tok.plain (str " and "),
    Tok.hl (str "that"), Tok.plain (str "!")]

/-! ## Helper lemmas -/

theorem enumFrom_get? {α : Type} (l : List α) :
    ∀ (k i : ℕ), (l.enumFrom k).get? i = (l.get? i).map fun a => (k + i, a) := by
  induction l with
  | nil => intro k i; simp
  | cons a l ih =>
    intro k i
    cases i with
    | zero => simp [List.enumFrom]
    | succ j =>
      simp only [List.enumFrom, List.get?_cons_succ]
      rw [ih (k + 1) j]
      have harith : k + 1 + j = k + (j + 1) := by omega
      cases hg : l.get? j with
      | none => simp
      | some b => simp [harith]

theorem mem_enum_of_get? {α : Type} {l : List α} {i : ℕ} {a : α}
    (h : l.get? i = some a) : (i, a) ∈ l.enum := by
  have := enumFrom_get? l 0 i
  rw [h] at this
  simp only [Option.map_some, Nat.zero_add] at this
  exact List.get?_mem this

/-! ## Claim C1: process-slide gap geometry -/

/-- C1, counterexample.  The claim asserts the exact-fill equation for
every `N ≥ 1`.  At `N = 1` the gap width is indeed `0`, but the occupied
width `1·stepSize = 1371600` EMU does not equal the available span
`availableWidth = 12801600` EMU, so the sum-equals-span part of the claim
fails at a process slide with one step. -/
theorem process_span_fails_at_single_step :
    process_gap_width 1 = 0 ∧
      ¬ ((1 : ℚ) * stepSize + ((1 : ℚ) - 1) * connectorWidth +
          2 * ((1 : ℚ) - 1) * process_gap_width 1 = availableWidth) := by
  constructor
  · simp [process_gap_width]
  · norm_num [stepSize, availableWidth, SLIDE_WIDTH, MARGIN_LEFT, inch]

/-- C1, amended.  For every process slide with `N ≥ 2` steps, the per-gap
width equals `(available − N·stepSize − (N−1)·connectorWidth) / (2·(N−1))`
and the `N` step widths, `N−1` connector widths and `2(N−1)` gap widths
exactly fill the available horizontal span; for `N = 1` the gap term is
zero (see the counterexample for why the span equation needs `N ≥ 2`). -/
theorem process_span_exact (n : ℕ) (h : 2 ≤ n) :
    process_gap_width n =
      (availableWidth - n * stepSize - ((n : ℚ) - 1) * connectorWidth) /
        (2 * ((n : ℚ) - 1)) ∧
    (n : ℚ) * stepSize + ((n : ℚ) - 1) * connectorWidth +
        2 * ((n : ℚ) - 1) * process_gap_width n = availableWidth := by
  have h1 : 1 < n := h
  have hne : ((n : ℚ) - 1) ≠ 0 := by
    have h2 : (2 : ℚ) ≤ (n : ℚ) := by exact_mod_cast h
    linarith
  constructor
  · rw [process_gap_width, if_pos h1]
    ring
  · rw [process_gap_width, if_pos h1]
    field_simp
    ring

/-- Witness for `process_span_exact` at `N = 3`. -/
theorem process_span_exact_witness :
    2 ≤ 3 ∧
      ((3 : ℕ) : ℚ) * stepSize + (((3 : ℕ) : ℚ) - 1) * connectorWidth +
        2 * (((3 : ℕ) : ℚ) - 1) * process_gap_width 3 = availableWidth :=
  ⟨by norm_num, (process_span_exact 3 (by norm_num)).2⟩

/-! ## Claim C5: section auto-numbering -/

/-- C5.  The spec (and the schema documentation embedded in `main.py`)
promise an auto-incremented section number when `sectionNo` is absent, but
no counter exists anywhere in the code: `draw_section_slide` falls back to
`data.get("sectionNo", "")` and renders the empty string.  Rendering two
consecutive section slides without `sectionNo` yields two identical slides
whose number pane text is empty. -/
theorem section_number_pane_blank :
    (create_presentation [sectionNoNumber, sectionNoNumber]).2.map OutSlide.elements =
      [draw_section_slide sectionNoNumber, draw_section_slide sectionNoNumber] ∧
    draw_section_slide sectionNoNumber =
      [Element.textbox MARGIN_LEFT (inch 3) (inch 2) (inch 3) [[rawRun []]],
        Element.textbox (MARGIN_LEFT + inch 2 + inch (1/2)) (inch 3)
          ((SLIDE_WIDTH - MARGIN_LEFT * 2) - inch 2 - inch (1/2)) (inch 3)
          (set_formatted_text_in_frame (str "Background"))] := by
  exact ⟨rfl, rfl⟩

/-! ## Claim C8: empty required collections -/

/-- C8, counterexample.  A timeline slide with zero milestones does not
produce a title-only surface: the baseline bar (a filled rectangle shape)
is drawn before the empty-milestones check, so the canvas carries a
drawable element beyond the title. -/
theorem timeline_empty_draws_bar :
    emptyTimeline.milestones = [] ∧
    draw_timeline_slide emptyTimeline =
      [Element.textbox MARGIN_LEFT MARGIN_TOP
          (SLIDE_WIDTH - MARGIN_LEFT - MARGIN_RIGHT) (inch 1)
          (set_formatted_text_in_frame (str "Roadmap")),
        Element.shape ShapeKind.rectangle MARGIN_LEFT
          (timelineY emptyTimeline - inch (1/40))
          (SLIDE_WIDTH - MARGIN_LEFT * 2) (inch (1/20)) [[]]] := by
  exact ⟨rfl, rfl⟩

/-- C8, amended.  A slide whose required collection is empty never fails
(the drawing functions are total) and skips the per-item body: process,
diagram, cards and progress slides emit exactly the title (and subhead, if
present); a timeline slide additionally emits the baseline bar, which is
drawn before the empty check. -/
theorem empty_collections_skip_body (d : SlideData) :
    (d.steps = [] → draw_process_slide d = contentHeader d) ∧
    (d.lanes = [] → draw_diagram_slide d = contentHeader d) ∧
    (d.cardItems = [] → draw_cards_slide d = contentHeader d) ∧
    (d.progressItems = [] → draw_progress_slide d = contentHeader d) ∧
    (d.milestones = [] →
      draw_timeline_slide d = timelineHeader d ++ [timelineBar d]) := by
  refine ⟨?_, ?_, ?_, ?_, ?_⟩ <;> intro h
  · simp [draw_process_slide, h]
  · simp [draw_diagram_slide, h]
  · simp [draw_cards_slide, h]
  · simp [draw_progress_slide, h]
  · simp [draw_timeline_slide, h]

/-- Witness for `empty_collections_skip_body` on a slide whose collections
are all empty. -/
theorem empty_collections_skip_body_witness :
    emptyBodySlide.steps = [] ∧
    draw_process_slide emptyBodySlide = contentHeader emptyBodySlide ∧
    emptyBodySlide.milestones = [] ∧
    draw_timeline_slide emptyBodySlide =
      timelineHeader emptyBodySlide ++ [timelineBar emptyBodySlide] :=
  ⟨rfl, (empty_collections_skip_body emptyBodySlide).1 rfl, rfl,
    (empty_collections_skip_body emptyBodySlide).2.2.2.2 rfl⟩

/-! ## Claim C2: timeline alternation -/

/-- C2.  For every timeline slide and every milestone index `i`, the
description box for milestone `i` appears in the drawn output at vertical
position `descYFor`, the date label at `dateYFor`; for even `i` the
description box sits below the baseline and the date just above it, for
odd `i` the description box sits wholly above the baseline and the date
sits `0.4in` above the description box.  The layout is a pure function of
the input, so re-running it yields identical placements. -/
theorem timeline_alternation (d : SlideData) (i : ℕ) (m : Milestone)
    (h : d.milestones.get? i = some m) :
    (Element.textbox (markerCenterX d.milestones.length i - inch (7/4))
        (descYFor (timelineY d) i) (inch (7/2)) (inch (3/2))
        [[rawRun m.label]]) ∈ draw_timeline_slide d ∧
    (Element.textbox (markerCenterX d.milestones.length i - inch (7/4))
        (dateYFor (timelineY d) i) (inch (7/2)) (inch (1/2))
        [[rawRun m.date]]) ∈ draw_timeline_slide d ∧
    (i % 2 = 0 →
      descYFor (timelineY d) i = timelineY d + inch (7/10) ∧
      timelineY d < descYFor (timelineY d) i ∧
      dateYFor (timelineY d) i = timelineY d - inch (7/10)) ∧
    (i % 2 = 1 →
      descYFor (timelineY d) i + inch (3/2) < timelineY d ∧
      dateYFor (timelineY d) i = descYFor (timelineY d) i - inch (2/5)) ∧
    draw_timeline_slide d = draw_timeline_slide d := by
  have hmem : (i, m) ∈ d.milestones.enum := mem_enum_of_get? h
  have hin : ∀ e ∈ milestoneElems (timelineY d)
      (markerCenterX d.milestones.length i) i m, e ∈ draw_timeline_slide d := by
    intro e he
    unfold draw_timeline_slide
    refine List.mem_append_right _ ?_
    exact List.mem_flatMap.mpr ⟨(i, m), hmem, he⟩
  refine ⟨?_, ?_, ?_, ?_, rfl⟩
  · exact hin _ (by simp [milestoneElems])
  · exact hin _ (by simp [milestoneElems])
  · intro he
    refine ⟨by simp [descYFor, he], ?_, by simp [dateYFor, he]⟩
    simp only [descYFor, he, if_pos]
    have : (0 : ℚ) < inch (7/10) := by norm_num [inch]
    linarith
  · intro ho
    have ho' : ¬ i % 2 = 0 := by omega
    refine ⟨?_, by simp [dateYFor, descYFor, ho']⟩
    simp only [descYFor, ho', if_neg, if_false]
    have h1 : (0 : ℚ) < inch (7/10) := by norm_num [inch]
    linarith

/-- Witness for `timeline_alternation` at the odd-index milestone of
`twoMilestones`. -/
theorem timeline_alternation_witness :
    twoMilestones.milestones.get? 1 = some ⟨str "launch", str "2025.06"⟩ ∧
    ((Element.textbox (markerCenterX twoMilestones.milestones.length 1 - inch (7/4))
        (descYFor (timelineY twoMilestones) 1) (inch (7/2)) (inch (3/2))
        [[rawRun (str "launch")]]) ∈ draw_timeline_slide twoMilestones ∧
      descYFor (timelineY twoMilestones) 1 + inch (3/2) < timelineY twoMilestones ∧
      dateYFor (timelineY twoMilestones) 1 =
        descYFor (timelineY twoMilestones) 1 - inch (2/5)) := by
  have h : twoMilestones.milestones.get? 1 = some ⟨str "launch", str "2025.06"⟩ := rfl
  have main := timeline_alternation twoMilestones 1 ⟨str "launch", str "2025.06"⟩ h
  exact ⟨h, main.1, (main.2.2.2.1 rfl).1, (main.2.2.2.1 rfl).2⟩

/-! ## Claim C9: progress bars are not clamped -/

/-- C9.  For every progress item, the foreground bar drawn for it has
width `progressFillWidth percent = 8in · (percent / 100)`, the percent
value is used exactly as given: above 100 the foreground bar is wider
than the fixed `8in` background bar, below 0 its width is negative — no
clamping anywhere. -/
theorem progress_no_clamp (d : SlideData) (i : ℕ) (it : ProgressItem)
    (h : d.progressItems.get? i = some it) :
    (Element.shape ShapeKind.rectangle (MARGIN_LEFT + inch (9/2))
        ((bodyTopStd d + inch (1/2) + (i : ℚ) * inch 1) +
          (inch (4/5) - inch (1/5)) / 2)
        (progressFillWidth it.percent) (inch (1/5)) [[]]) ∈
      draw_progress_slide d ∧
    progressFillWidth it.percent = inch 8 * (it.percent / 100) ∧
    (100 < it.percent → inch 8 < progressFillWidth it.percent) ∧
    (it.percent < 0 → progressFillWidth it.percent < 0) := by
  refine ⟨?_, rfl, ?_, ?_⟩
  · cases hl : d.progressItems with
    | nil => rw [hl] at h; simp at h
    | cons a rest =>
      rw [hl] at h
      unfold draw_progress_slide
      rw [hl]
      refine List.mem_append_right _ ?_
      simp only
      exact List.mem_flatMap.mpr ⟨(i, it), mem_enum_of_get? h, by simp [progressItemElems]⟩
  · intro hp
    have h8 : (0 : ℚ) < inch 8 := by norm_num [inch]
    calc inch 8 = inch 8 * 1 := by ring
    _ < inch 8 * (it.percent / 100) := by
        apply mul_lt_mul_of_pos_left _ h8
        linarith
    _ = progressFillWidth it.percent := rfl
  · intro hp
    have h8 : (0 : ℚ) < inch 8 := by norm_num [inch]
    have : it.percent / 100 < 0 := by linarith
    calc progressFillWidth it.percent = inch 8 * (it.percent / 100) := rfl
    _ < inch 8 * 0 := by exact mul_lt_mul_of_pos_left this h8
    _ = 0 := by ring

/-- Witness for `progress_no_clamp` at the 120-percent item of
`progressSlideEx`. -/
theorem progress_no_clamp_witness :
    progressSlideEx.progressItems.get? 0 = some ⟨str "backend", 120⟩ ∧
    ((Element.shape ShapeKind.rectangle (MARGIN_LEFT + inch (9/2))
        ((bodyTopStd progressSlideEx + inch (1/2) + ((0 : ℕ) : ℚ) * inch 1) +
          (inch (4/5) - inch (1/5)) / 2)
        (progressFillWidth 120) (inch (1/5)) [[]]) ∈
      draw_progress_slide progressSlideEx ∧
      inch 8 < progressFillWidth 120) := by
  have h : progressSlideEx.progressItems.get? 0 = some ⟨str "backend", 120⟩ := rfl
  have main := progress_no_clamp progressSlideEx 0 ⟨str "backend", 120⟩ h
  exact ⟨h, main.1, main.2.2.1 (by norm_num)⟩

/-! ## Claim C10: content slide twoColumn dispatch -/

/-- C10.  With `twoColumn` set, the drawn content slide depends only on
the `title` and `columns` fields (`subhead` and `points` produce nothing);
with `twoColumn` absent or false it depends only on `title`, `subhead` and
`points` (`columns` is ignored), and the subhead and every point are
rendered as paragraphs of the body textbox. -/
theorem content_twoColumn_dispatch (d e : SlideData) :
    (d.twoColumn = true → e.twoColumn = true → d.title? = e.title? →
      d.columns? = e.columns? → draw_content_slide d = draw_content_slide e) ∧
    (d.twoColumn = false → e.twoColumn = false → d.title? = e.title? →
      d.subhead? = e.subhead? → d.points? = e.points? →
      draw_content_slide d = draw_content_slide e) ∧
    (d.twoColumn = false →
      (Element.textbox MARGIN_LEFT (MARGIN_TOP + inch (6/5))
          (SLIDE_WIDTH - MARGIN_LEFT - MARGIN_RIGHT)
          (SLIDE_HEIGHT - (MARGIN_TOP + inch (6/5)) - MARGIN_BOTTOM)
          (contentBodyParas d)) ∈ draw_content_slide d) ∧
    (∀ s, d.subhead? = some s →
      apply_formatted_text_to_paragraph s ∈ contentBodyParas d) ∧
    (∀ pts p, d.points? = some pts → p ∈ pts →
      apply_formatted_text_to_paragraph p ∈ contentBodyParas d) := by
  refine ⟨?_, ?_, ?_, ?_, ?_⟩
  · intro hd he h1 h2
    simp [draw_content_slide, hd, he, h1, h2]
  · intro hd he h1 h2 h3
    simp [draw_content_slide, hd, he, h1, h2, h3, contentBodyParas]
  · intro hd
    simp [draw_content_slide, hd]
  · intro s hs
    simp [contentBodyParas, hs]
  · intro pts p hp hmem
    simp only [contentBodyParas, List.mem_cons, List.mem_append]
    right
    right
    rw [hp]
    exact List.mem_map_of_mem _ hmem

/-- Witness for `content_twoColumn_dispatch`: removing `subhead` and
`points` from a two-column slide leaves the drawn output unchanged, and
the one-column fixture renders its subhead. -/
theorem content_twoColumn_dispatch_witness :
    draw_content_slide contentColsA = draw_content_slide contentColsB ∧
    (contentOneCol.twoColumn = false ∧ contentOneCol.subhead? = some (str "S")) ∧
    (Element.textbox MARGIN_LEFT (MARGIN_TOP + inch (6/5))
        (SLIDE_WIDTH - MARGIN_LEFT - MARGIN_RIGHT)
        (SLIDE_HEIGHT - (MARGIN_TOP + inch (6/5)) - MARGIN_BOTTOM)
        (contentBodyParas contentOneCol)) ∈ draw_content_slide contentOneCol ∧
    apply_formatted_text_to_paragraph (str "S") ∈ contentBodyParas contentOneCol :=
  ⟨(content_twoColumn_dispatch contentColsA contentColsB).1 rfl rfl rfl rfl,
    ⟨rfl, rfl⟩,
    (content_twoColumn_dispatch contentOneCol contentOneCol).2.2.1 rfl,
    (content_twoColumn_dispatch contentOneCol contentOneCol).2.2.2.1 (str "S") rfl⟩

/-! ## Claim C6: the caller's slide records -/

theorem create_presentation_fst (slides : List SlideData) :
    (create_presentation slides).1 = slides.enum.map fun p => truncTitleNotes p.2 := by
  simp [create_presentation, processSlide]

theorem enumFrom_map_snd {α β : Type} (f : α → β) (l : List α) :
    ∀ k : ℕ, (l.enumFrom k).map (fun p => f p.2) = l.map f := by
  induction l with
  | nil => intro k; simp
  | cons a l ih => intro k; simp [List.enumFrom, ih (k + 1)]

/-- C6, counterexample.  `create_presentation` truncates over-long `title`
and `notes` fields in place on the caller's records: handing it a slide
whose title has 1001 characters gives back a record whose title now has
1003 characters (1000 plus the appended ellipsis), so the caller's data is
not left unchanged. -/
theorem caller_slides_mutated :
    (create_presentation [longTitleSlide]).1 ≠ [longTitleSlide] := by
  intro hEq
  have h1 : truncTitleNotes longTitleSlide = longTitleSlide := by
    have := congrArg (fun l => l.get? 0) hEq
    simpa [create_presentation, processSlide] using this
  have h2 := congrArg SlideData.title? h1
  simp only [truncTitleNotes, longTitleSlide, Option.map_some', Option.some.injEq] at h2
  have h3 := congrArg List.length h2
  rw [truncateWithEllipsis, if_pos (by rw [List.length_replicate]; omega)] at h3
  rw [List.length_append, List.length_take, List.length_replicate] at h3
  simp only [List.length_cons, List.length_nil] at h3
  omega

/-- C6, amended.  As long as every slide's `title` and `notes` stay within
the 1000-character safety ceiling, `create_presentation` leaves the
caller's records exactly as they were passed in; records exceeding the
ceiling are truncated in place (see the counterexample). -/
theorem caller_slides_unchanged (slides : List SlideData)
    (h : ∀ d ∈ slides, (d.title?.getD []).length ≤ 1000 ∧
      (d.notes?.getD []).length ≤ 1000) :
    (create_presentation slides).1 = slides := by
  rw [create_presentation_fst]
  have hfold : slides.enum.map (fun p => truncTitleNotes p.2) =
      slides.map truncTitleNotes := enumFrom_map_snd truncTitleNotes slides 0
  rw [hfold]
  have hid : ∀ d ∈ slides, truncTitleNotes d = d := by
    intro d hd
    obtain ⟨ht, hn⟩ := h d hd
    have htitle : d.title?.map truncateWithEllipsis = d.title? := by
      cases hcase : d.title? with
      | none => rfl
      | some t =>
        rw [hcase] at ht
        simp only [Option.getD_some] at ht
        simp [truncateWithEllipsis, Nat.not_lt.mpr ht]
    have hnotes : d.notes?.map truncateWithEllipsis = d.notes? := by
      cases hcase : d.notes? with
      | none => rfl
      | some t =>
        rw [hcase] at hn
        simp only [Option.getD_some] at hn
        simp [truncateWithEllipsis, Nat.not_lt.mpr hn]
    rw [truncTitleNotes, htitle, hnotes]
  calc slides.map truncTitleNotes = slides.map id := List.map_congr_left hid
  _ = slides := List.map_id slides

/-- Witness for `caller_slides_unchanged` on two short slides. -/
theorem caller_slides_unchanged_witness :
    (∀ d ∈ [titleSlideEx, sectionNoNumber],
      (d.title?.getD []).length ≤ 1000 ∧ (d.notes?.getD []).length ≤ 1000) ∧
    (create_presentation [titleSlideEx, sectionNoNumber]).1 =
      [titleSlideEx, sectionNoNumber] :=
  ⟨by decide, caller_slides_unchanged [titleSlideEx, sectionNoNumber] (by decide)⟩

/-! ## Claim C7: unknown slide kinds -/

/-- C7.  A slide whose `type` is not in the dispatch table still yields an
output slide: its body is empty, its speaker notes are attached, its name
is set, and the batch continues — one produced slide per input slide, the
records after it processed as usual. -/
theorem unknown_kind_skipped (slides : List SlideData) (i : ℕ) (d : SlideData)
    (h1 : slides.get? i = some d) (h2 : dispatchOf d = none) :
    (create_presentation slides).2.length = slides.length ∧
    (create_presentation slides).2.get? i =
      some ⟨slideName i d.type?, [],
        add_speaker_notes (d.notes?.map truncateWithEllipsis)⟩ := by
  constructor
  · simp [create_presentation]
  · have henum : slides.enum.get? i = some (i, d) := by
      rw [List.enum, enumFrom_get? slides 0 i, h1]
      simp
    have hdisp : dispatchOf (truncTitleNotes d) = none := h2
    simp only [create_presentation, List.get?_map, henum, Option.map_some']
    simp only [processSlide, hdisp]
    rfl

/-- Witness for `unknown_kind_skipped`: a bogus-typed slide between two
valid slides is skipped with its notes attached while the deck still has
three slides. -/
theorem unknown_kind_skipped_witness :
    [titleSlideEx, bogusSlide, sectionNoNumber].get? 1 = some bogusSlide ∧
    dispatchOf bogusSlide = none ∧
    (create_presentation [titleSlideEx, bogusSlide, sectionNoNumber]).2.length = 3 ∧
    (create_presentation [titleSlideEx, bogusSlide, sectionNoNumber]).2.get? 1 =
      some ⟨slideName 1 bogusSlide.type?, [],
        add_speaker_notes (bogusSlide.notes?.map truncateWithEllipsis)⟩ := by
  have h := unknown_kind_skipped [titleSlideEx, bogusSlide, sectionNoNumber] 1
    bogusSlide rfl rfl
  exact ⟨rfl, rfl, h.1, h.2⟩

/-! ## Parser lemmas -/

theorem runsText_nil : runsText [] = [] := rfl

theorem runsText_append (l1 l2 : List Run) :
    runsText (l1 ++ l2) = runsText l1 ++ runsText l2 := by
  simp [runsText]

theorem renderToks_cons (t : Tok) (ts : List Tok) :
    renderToks (t :: ts) = t.render ++ renderToks ts := by
  simp [renderToks]

theorem contentsToks_cons (t : Tok) (ts : List Tok) :
    contentsToks (t :: ts) = t.content ++ contentsToks ts := by
  simp [contentsToks]

theorem plainWf_nil : plainWf [] := by
  refine ⟨rfl, rfl, ?_, ?_⟩ <;> simp

theorem hasDbl_cons_cons {a x y : Char} {l : Str}
    (h : hasDbl a (x :: y :: l) = false) :
    ¬(x = a ∧ y = a) ∧ hasDbl a (y :: l) = false := by
  simp only [hasDbl, Bool.or_eq_false_iff, Bool.and_eq_false_iff,
    decide_eq_false_iff_not] at h
  exact ⟨fun ⟨hx, hy⟩ => by rcases h.1 with h' | h' <;> exact h' (by simp [hx, hy]),
    h.2⟩

theorem hasDbl_append (a : Char) (x y : Str) (hx : hasDbl a x = false)
    (hy : hasDbl a y = false) (hl : x.getLast? ≠ some a) :
    hasDbl a (x ++ y) = false := by
  induction x with
  | nil => exact hy
  | cons c x' ih =>
    cases x' with
    | nil =>
      cases y with
      | nil => rfl
      | cons d y' =>
        have hc : ¬ c = a := by
          intro hca
          exact hl (by simp [hca])
        simp only [List.cons_append, List.nil_append, hasDbl,
          Bool.or_eq_false_iff, Bool.and_eq_false_iff, decide_eq_false_iff_not]
        exact ⟨Or.inl hc, hy⟩
    | cons d x'' =>
      obtain ⟨hp, ht⟩ := hasDbl_cons_cons hx
      have hl' : (d :: x'').getLast? ≠ some a := by
        rwa [List.getLast?_cons_cons] at hl
      have := ih ht hl'
      simp only [List.cons_append, hasDbl, Bool.or_eq_false_iff,
        Bool.and_eq_false_iff, decide_eq_false_iff_not]
      constructor
      · by_cases hca : c = a
        · right; intro hda; exact hp ⟨hca, hda⟩
        · exact Or.inl hca
      · simpa using this

theorem plainWf_cons {c : Char} {g : Str} (h : plainWf (c :: g)) : plainWf g := by
  obtain ⟨h1, h2, h3, h4⟩ := h
  cases g with
  | nil => exact plainWf_nil
  | cons d g' =>
    refine ⟨(hasDbl_cons_cons h1).2, (hasDbl_cons_cons h2).2, ?_, ?_⟩ <;>
      rwa [List.getLast?_cons_cons] at h3 h4

theorem plainWf_append {x y : Str} (hx : plainWf x) (hy : plainWf y) :
    plainWf (x ++ y) := by
  obtain ⟨hx1, hx2, hx3, hx4⟩ := hx
  obtain ⟨hy1, hy2, hy3, hy4⟩ := hy
  cases hyy : y with
  | nil =>
    rw [List.append_nil]
    exact ⟨hx1, hx2, hx3, hx4⟩
  | cons d y' =>
    rw [← hyy]
    have hglast : (x ++ y).getLast? = y.getLast? := by
      rw [hyy]
      exact List.getLast?_append_of_ne_nil x (by simp)
    refine ⟨hasDbl_append _ _ _ hx1 hy1 hx3, hasDbl_append _ _ _ hx2 hy2 hx4, ?_, ?_⟩ <;>
      rw [hglast] <;> assumption

theorem findClosing_complete (a : Char) (s r : Str) (h1 : hasDbl a s = false)
    (h2 : '\n' ∉ s) (h3 : s.getLast? ≠ some a) :
    findClosing a (s ++ a :: a :: r) = some (s, r) := by
  induction s with
  | nil => simp [findClosing]
  | cons c s' ih =>
    cases s' with
    | nil =>
      have hc : ¬ c = a := by
        intro hca
        exact h3 (by simp [hca])
      have hn : ¬ c = '\n' := by
        intro hcn
        exact h2 (by simp [hcn])
      simp only [List.cons_append, List.nil_append, findClosing]
      rw [if_neg (by tauto), if_neg hn]
      simp [findClosing]
    | cons d s'' =>
      obtain ⟨hp, ht⟩ := hasDbl_cons_cons h1
      have h2' : '\n' ∉ (d :: s'') := fun hmem => h2 (by simp [hmem])
      have hn : ¬ c = '\n' := fun hcn => h2 (by simp [hcn])
      have h3' : (d :: s'').getLast? ≠ some a := by
        rwa [List.getLast?_cons_cons] at h3
      have hrec := ih ht h2' h3'
      simp only [List.cons_append, findClosing, List.append_eq]
      rw [if_neg hp, if_neg hn]
      rw [List.cons_append] at hrec
      rw [hrec]
      rfl

theorem splitMarkers_inert (g : Str) (hg : plainWf g) :
    ∀ (acc rest : Str),
      splitMarkers acc (g ++ rest) = splitMarkers (g.reverse ++ acc) rest := by
  induction g with
  | nil => intro acc rest; simp
  | cons c g' ih =>
    intro acc rest
    obtain ⟨hg1, hg2, hg3, hg4⟩ := hg
    cases g' with
    | nil =>
      cases rest with
      | nil => simp [splitMarkers]
      | cons r1 rest' =>
        have hc1 : ¬ c = '*' := by
          intro hc
          exact hg3 (by simp [hc])
        have hc2 : ¬ c = '[' := by
          intro hc
          exact hg4 (by simp [hc])
        simp only [List.cons_append, List.nil_append, splitMarkers]
        rw [if_neg (by tauto), if_neg (by tauto)]
        simp
    | cons d g'' =>
      have hwf' : plainWf (d :: g'') := plainWf_cons ⟨hg1, hg2, hg3, hg4⟩
      have hp1 := (hasDbl_cons_cons hg1).1
      have hp2 := (hasDbl_cons_cons hg2).1
      simp only [List.cons_append, splitMarkers, List.append_eq]
      rw [if_neg hp1, if_neg hp2]
      have hrec := ih hwf' (c :: acc) rest
      rw [List.cons_append] at hrec
      rw [hrec]
      simp [List.append_assoc]

theorem splitMarkers_bold (s r acc : Str) (h1 : hasDbl '*' s = false)
    (h2 : '\n' ∉ s) (h3 : s.getLast? ≠ some '*') :
    splitMarkers acc ('*' :: '*' :: (s ++ '*' :: '*' :: r)) =
      acc.reverse :: ('*' :: '*' :: (s ++ ['*', '*'])) :: splitMarkers [] r := by
  have hc := findClosing_complete '*' s r h1 h2 h3
  simp only [splitMarkers]
  rw [if_pos (by constructor <;> trivial)]
  split
  · rename_i t r1 heq
    rw [hc] at heq
    injection heq with heq'
    injection heq' with ht hr
    rw [ht, hr]
  · rename_i heq
    rw [hc] at heq
    exact absurd heq (by simp)

theorem splitMarkers_hl (s r acc : Str) (h1 : hasDbl ']' s = false)
    (h2 : '\n' ∉ s) (h3 : s.getLast? ≠ some ']') :
    splitMarkers acc ('[' :: '[' :: (s ++ ']' :: ']' :: r)) =
      acc.reverse :: ('[' :: '[' :: (s ++ [']', ']'])) :: splitMarkers [] r := by
  have hc := findClosing_complete ']' s r h1 h2 h3
  simp only [splitMarkers]
  rw [if_neg (by simp), if_pos (by constructor <;> trivial)]
  split
  · rename_i t r1 heq
    rw [hc] at heq
    injection heq with heq'
    injection heq' with ht hr
    rw [ht, hr]
  · rename_i heq
    rw [hc] at heq
    exact absurd heq (by simp)

theorem startsWith2_dbl_false {a : Char} {g : Str} (h : hasDbl a g = false) :
    startsWith2 a a g = false := by
  cases g with
  | nil => rfl
  | cons x g' =>
    cases g' with
    | nil => rfl
    | cons y g'' =>
      have := (hasDbl_cons_cons h).1
      simp only [startsWith2, Bool.and_eq_false_iff, decide_eq_false_iff_not]
      by_cases hx : x = a
      · right; intro hy; exact this ⟨hx, hy⟩
      · exact Or.inl hx

theorem markup_part_runs_gap (g : Str) (hg : plainWf g) :
    runsText (markup_part_runs g) = g := by
  obtain ⟨h1, h2, _, _⟩ := hg
  rw [markup_part_runs]
  rw [if_neg (by rw [startsWith2_dbl_false h1]; simp)]
  rw [if_neg (by rw [startsWith2_dbl_false h2]; simp)]
  cases g with
  | nil => rfl
  | cons c g' => simp [runsText]

theorem stripEnds2_marked (o1 o2 c1 c2 : Char) (s : Str) :
    stripEnds2 (o1 :: o2 :: (s ++ [c1, c2])) = s := by
  rw [stripEnds2]
  have h1 : (o1 :: o2 :: (s ++ [c1, c2])).drop 2 = s ++ [c1, c2] := rfl
  have h2 : (o1 :: o2 :: (s ++ [c1, c2])).length - 4 = s.length := by
    simp only [List.length_cons, List.length_append, List.length_nil]
    omega
  rw [h1, h2]
  exact List.take_left s [c1, c2]

theorem markup_part_runs_bold (s : Str) :
    markup_part_runs ('*' :: '*' :: (s ++ ['*', '*'])) = [⟨s, true, false⟩] := by
  have hs : startsWith2 '*' '*' ('*' :: '*' :: (s ++ ['*', '*'])) = true := by
    simp [startsWith2]
  have he : endsWith2 '*' '*' ('*' :: '*' :: (s ++ ['*', '*'])) = true := by
    rw [endsWith2]
    rw [show ('*' :: '*' :: (s ++ ['*', '*'])).reverse =
      '*' :: '*' :: (s.reverse ++ ['*', '*']) from by simp]
    simp [startsWith2]
  rw [markup_part_runs, if_pos (by rw [hs, he]; rfl)]
  rw [stripEnds2_marked]

theorem markup_part_runs_hl (s : Str) :
    markup_part_runs ('[' :: '[' :: (s ++ [']', ']'])) = [⟨s, true, true⟩] := by
  have hs1 : startsWith2 '*' '*' ('[' :: '[' :: (s ++ [']', ']'])) = false := by
    simp [startsWith2]
  have hs : startsWith2 '[' '[' ('[' :: '[' :: (s ++ [']', ']'])) = true := by
    simp [startsWith2]
  have he : endsWith2 ']' ']' ('[' :: '[' :: (s ++ [']', ']'])) = true := by
    rw [endsWith2]
    rw [show ('[' :: '[' :: (s ++ [']', ']'])).reverse =
      ']' :: ']' :: (s.reverse ++ ['[', '[']) from by simp]
    simp [startsWith2]
  rw [markup_part_runs, if_neg (by rw [hs1]; simp), if_pos (by rw [hs, he]; rfl)]
  rw [stripEnds2_marked]

/-- The central lemma: scanning the rendered form of a well-formed token
sequence (with an inert reversed gap `acc` pending) produces runs whose
concatenated text is the pending gap followed by the delimiter-free
contents. -/
theorem scan_render (ts : List Tok) (h : ∀ t ∈ ts, t.wf) :
    ∀ acc : Str, plainWf acc.reverse →
      runsText ((splitMarkers acc (renderToks ts)).flatMap markup_part_runs) =
        acc.reverse ++ contentsToks ts := by
  induction ts with
  | nil =>
    intro acc hacc
    simp only [renderToks, List.map_nil, List.flatten_nil, splitMarkers,
      List.flatMap_cons, List.flatMap_nil, List.append_nil, contentsToks]
    rw [markup_part_runs_gap _ hacc]
  | cons t ts ih =>
    intro acc hacc
    have hwf : t.wf := h t (by simp)
    have hts : ∀ t' ∈ ts, t'.wf := fun t' ht' => h t' (by simp [ht'])
    cases t with
    | plain s =>
      have hwf' : plainWf s := hwf
      rw [renderToks_cons]
      rw [show Tok.render (Tok.plain s) = s from rfl]
      rw [splitMarkers_inert s hwf' acc (renderToks ts)]
      have hacc' : plainWf (s.reverse ++ acc).reverse := by
        rw [List.reverse_append, List.reverse_reverse]
        exact plainWf_append hacc hwf'
      rw [ih hts (s.reverse ++ acc) hacc']
      rw [List.reverse_append, List.reverse_reverse, contentsToks_cons]
      rw [show Tok.content (Tok.plain s) = s from rfl]
      rw [List.append_assoc]
    | bold s =>
      obtain ⟨h1, h2, h3⟩ := hwf
      rw [renderToks_cons]
      rw [show Tok.render (Tok.bold s) ++ renderToks ts =
        '*' :: '*' :: (s ++ '*' :: '*' :: renderToks ts) from by
          simp [Tok.render]]
      rw [splitMarkers_bold s (renderToks ts) acc h1 h2 h3]
      simp only [List.flatMap_cons]
      rw [runsText_append, runsText_append]
      rw [markup_part_runs_gap _ hacc, markup_part_runs_bold s]
      rw [ih hts [] (by simpa using plainWf_nil)]
      rw [contentsToks_cons]
      rw [show Tok.content (Tok.bold s) = s from rfl]
      simp [runsText, List.append_assoc]
    | hl s =>
      obtain ⟨h1, h2, h3⟩ := hwf
      rw [renderToks_cons]
      rw [show Tok.render (Tok.hl s) ++ renderToks ts =
        '[' :: '[' :: (s ++ ']' :: ']' :: renderToks ts) from by
          simp [Tok.render]]
      rw [splitMarkers_hl s (renderToks ts) acc h1 h2 h3]
      simp only [List.flatMap_cons]
      rw [runsText_append, runsText_append]
      rw [markup_part_runs_gap _ hacc, markup_part_runs_hl s]
      rw [ih hts [] (by simpa using plainWf_nil)]
      rw [contentsToks_cons]
      rw [show Tok.content (Tok.hl s) = s from rfl]
      simp [runsText, List.append_assoc]

/-! ## Claim C3: markup round-trip -/

/-- C3.  For every input string with balanced `**..**` / `[[..]]` markers
(formalised as the rendering of a well-formed token sequence),
concatenating the text of the runs produced by the inline markup parser —
styling ignored — yields the original string with the marker delimiter
characters removed. -/
theorem markup_roundtrip (ts : List Tok) (h : ∀ t ∈ ts, t.wf) :
    runsText (apply_formatted_text_to_paragraph (renderToks ts)) =
      contentsToks ts := by
  rw [apply_formatted_text_to_paragraph]
  have hmain := scan_render ts h [] (by simpa using plainWf_nil)
  simpa using hmain

/-- Witness for `markup_roundtrip` on a concrete balanced text
(`see **this** and [[that]]!`). -/
theorem markup_roundtrip_witness :
    (∀ t ∈ toksEx, t.wf) ∧
    runsText (apply_formatted_text_to_paragraph (renderToks toksEx)) =
      contentsToks toksEx :=
  ⟨by decide, markup_roundtrip toksEx (by decide)⟩

/-! ## Claim C4: unmatched markers -/

/-- C4, counterexample.  The claim says unmatched marker characters are
retained verbatim as plain unstyled text.  But the input `"**"` (two
unmatched marker characters, no complete `**X**` pair — the regex needs at
least four characters) produces a single run whose text is empty and whose
bold flag is set: the delimiters are stripped and styled, not retained. -/
theorem unmatched_marker_stripped :
    apply_formatted_text_to_paragraph ['*', '*'] = [⟨[], true, false⟩] ∧
    runsText (apply_formatted_text_to_paragraph ['*', '*']) ≠ ['*', '*'] := by
  have heval : apply_formatted_text_to_paragraph ['*', '*'] = [⟨[], true, false⟩] := by
    simp [apply_formatted_text_to_paragraph, splitMarkers, findClosing,
      markup_part_runs, startsWith2, endsWith2, stripEnds2]
  refine ⟨heval, ?_⟩
  rw [heval]
  decide

/-- C4, amended.  The parser is total (never raises), and an input that
the marker regex leaves as one unmatched part is retained verbatim as
plain, unstyled text — unless that part itself both starts with `**` and
ends with `**` (or starts with `[[` and ends with `]]`), in which case the
`startswith`/`endswith` branch strips the delimiters and styles the run
even though the regex never matched (see the counterexample). -/
theorem unmatched_markers_passthrough (s : Str) (h1 : splitMarkers [] s = [s])
    (h2 : (startsWith2 '*' '*' s && endsWith2 '*' '*' s) = false)
    (h3 : (startsWith2 '[' '[' s && endsWith2 ']' ']' s) = false)
    (h4 : s ≠ []) :
    apply_formatted_text_to_paragraph s = [⟨s, false, false⟩] := by
  rw [apply_formatted_text_to_paragraph, h1]
  simp only [List.flatMap_cons, List.flatMap_nil, List.append_nil]
  rw [markup_part_runs, if_neg (by rw [h2]; simp), if_neg (by rw [h3]; simp),
    if_neg (by simpa using h4)]

/-- Witness for `unmatched_markers_passthrough` on `"abc**"` (a trailing
unmatched marker). -/
theorem unmatched_markers_passthrough_witness :
    splitMarkers [] ['a', 'b', 'c', '*', '*'] = [['a', 'b', 'c', '*', '*']] ∧
    (['a', 'b', 'c', '*', '*'] : Str) ≠ [] ∧
    apply_formatted_text_to_paragraph ['a', 'b', 'c', '*', '*'] =
      [⟨['a', 'b', 'c', '*', '*'], false, false⟩] :=
  ⟨by simp [splitMarkers, findClosing], by decide,
    unmatched_markers_passthrough ['a', 'b', 'c', '*', '*']
      (by simp [splitMarkers, findClosing]) (by decide) (by decide) (by decide)⟩

end PPTGen
